import Mathlib

/-!
# Verification of `crypto_bot/chalicelib/exchanges/bybit.py` (BybitClient)

Shallow embedding of the exchange client's operations.  Exchange I/O is
modelled by an attempt-indexed stream of classified outcomes (the three
exception classes the source catches: `ccxt.NetworkError`,
`ccxt.ExchangeError`, and everything else), and each retry loop is embedded
as fuel recursion on `max_retries - retries`.  Python `float` arithmetic on
fill amounts and costs is modelled over `ℚ`; Python's builtin `round` is
round-half-to-even.  A function call either returns a value or raises, which
is captured by `PyResult`.
-/

/-- Classification of an exception escaping one exchange call, mirroring the
`except` clauses of the source: `ccxt.NetworkError` (with its subtype, since
`create_limit_order` inspects `ccxt.RequestTimeout`), `ccxt.ExchangeError`,
and any other `Exception`. -/
inductive NetErrKind where
  | requestTimeout : NetErrKind
  | otherNetwork : NetErrKind
deriving DecidableEq, Repr

/-- Outcome of one attempt of an exchange call: success carrying the
response, or one of the three caught exception classes. -/
inductive Outcome (α : Type) where
  | ok : α → Outcome α
  | netErr : NetErrKind → Outcome α
  | exchErr : Outcome α
  | unexpected : Outcome α
deriving DecidableEq, Repr

/-- Result of running a Python function: it returns a value or raises. -/
inductive PyResult (α : Type) where
  | ret : α → PyResult α
  | raised : PyResult α
deriving DecidableEq, Repr

/-- Observable run of a retry-wrapped operation: the result, how many times
the `try` body was entered, and how many `time.sleep(3)` calls ran. -/
structure RunStats (β : Type) where
  result : PyResult β
  attempts : Nat
  sleeps : Nat
deriving DecidableEq, Repr

/-- The shared retry-loop skeleton of `connect`, `get_total_currency`,
`get_account_allocation` and `get_most_recent_trade`
(`while retries < max_retries: try ... except NetworkError: sleep; retries += 1
except ExchangeError: ... except Exception: raise`), with the per-operation
success body `onOk`, `ExchangeError` handler `onExch`, and the value produced
after the loop exhausts `exhausted`.  Fuel is `max_retries - retries`;
`attempts` is also the index of the next outcome to consume. -/
def retryRunGo (outcomes : Nat → Outcome α) (onOk : α → PyResult β)
    (onExch exhausted : PyResult β) :
    Nat → Nat → Nat → RunStats β
  | attempts, sleeps, 0 => ⟨exhausted, attempts, sleeps⟩
  | attempts, sleeps, fuel + 1 =>
    match outcomes attempts with
    | .ok a => ⟨onOk a, attempts + 1, sleeps⟩
    | .netErr _ => retryRunGo outcomes onOk onExch exhausted
        (attempts + 1) (sleeps + 1) fuel
    | .exchErr => ⟨onExch, attempts + 1, sleeps⟩
    | .unexpected => ⟨.raised, attempts + 1, sleeps⟩

/-- Run the shared retry loop from `retries = 0`. -/
def retryRun (outcomes : Nat → Outcome α) (onOk : α → PyResult β)
    (onExch exhausted : PyResult β) (maxRetries : Nat) : RunStats β :=
  retryRunGo outcomes onOk onExch exhausted 0 0 maxRetries

/-- Python's builtin `round` on the integers scale: round half to even
(banker's rounding). -/
def roundHalfEven (q : ℚ) : ℤ :=
  let n := ⌊q⌋
  if q - n < 1 / 2 then n
  else if q - n > 1 / 2 then n + 1
  else if n % 2 = 0 then n else n + 1

/-- `round(x, 2)` from the source: round to 2 decimal places, half to even. -/
def pyRound2 (q : ℚ) : ℚ := (roundHalfEven (q * 100) : ℚ) / 100

/-- The `side` field of an exchange trade fill (`trade.get("side")`):
`"buy"`, `"sell"`, or anything else. -/
inductive Side where
  | buy : Side
  | sell : Side
  | other : Side
deriving DecidableEq, Repr

/-- One fill from `fetch_my_trades`: the fields the source reads.  The
source reads `amount` and `cost` with `trade.get(_, 0)`, so an absent field
is identified with 0. -/
structure Fill where
  side : Side
  amount : ℚ
  cost : ℚ
deriving DecidableEq, Repr

/-- Python `trades[-i:]`: for `i = 0` the whole list, otherwise the last
`min i (length)` elements. -/
def pySliceFromNeg (xs : List α) (i : Nat) : List α :=
  if i = 0 then xs else xs.drop (xs.length - i)

/-- `prev_trade_side` update of `get_most_recent_trade`'s scan: set on
`"buy"` and `"sell"`, untouched otherwise (no `elif` matches). -/
def updatePrevSide (prev : Option Side) : Side → Option Side
  | .buy => some .buy
  | .sell => some .sell
  | .other => prev

/-- The `for i, trade in enumerate(reversed(trades))` scan of
`get_most_recent_trade`: on seeing `prev_trade_side == "buy"` and
`side == "sell"` return `trades[-i:]`; if the loop completes, the `for`'s
`else` clause returns `trades` whole. -/
def mostRecentTradeGo (trades : List Fill) :
    List Fill → Nat → Option Side → List Fill
  | [], _, _ => trades
  | t :: rest, i, prev =>
    if prev = some Side.buy ∧ t.side = Side.sell then pySliceFromNeg trades i
    else mostRecentTradeGo trades rest (i + 1) (updatePrevSide prev t.side)

/-- Success body of `get_most_recent_trade`: the matching pass over the
fills returned by `fetch_my_trades` (oldest first), or `[]` when there are
none. -/
def mostRecentTradeMatch (trades : List Fill) : List Fill :=
  if trades = [] then [] else mostRecentTradeGo trades trades.reverse 0 none

/-- The accumulator of `get_trade_value_usd`'s loop. -/
structure ValState where
  trade_value_usd : ℚ
  amount_owned : ℚ
  amount_bought : ℚ
deriving DecidableEq, Repr

/-- One iteration of `get_trade_value_usd`'s loop over the fills. -/
def valStep (s : ValState) (t : Fill) : ValState :=
  match t.side with
  | .buy => ⟨s.trade_value_usd + t.cost, s.amount_owned + t.amount,
      s.amount_bought + t.amount⟩
  | .sell => ⟨s.trade_value_usd, s.amount_owned - t.amount, s.amount_bought⟩
  | .other => s

/-- `BybitClient.get_trade_value_usd`: accumulate cost and amounts over the
fills; guard `amount_bought == 0`; otherwise prorate the purchase cost by
`round(amount_owned / amount_bought, 2)`. -/
def get_trade_value_usd (trades : List Fill) : ℚ :=
  let s := trades.foldl valStep ⟨0, 0, 0⟩
  if s.amount_bought = 0 then 0
  else s.trade_value_usd * pyRound2 (s.amount_owned / s.amount_bought)

/-- The buy fills of a list, as the spec's sums speak of them. -/
def buyFills (trades : List Fill) : List Fill :=
  trades.filter (fun t => t.side = Side.buy)

/-- The sell fills of a list. -/
def sellFills (trades : List Fill) : List Fill :=
  trades.filter (fun t => t.side = Side.sell)

/-- Spec-side `totalBought`: total amount across buy fills. -/
def totalBought (trades : List Fill) : ℚ :=
  ((buyFills trades).map Fill.amount).sum

/-- Spec-side `totalCost`: total cost across buy fills. -/
def totalCost (trades : List Fill) : ℚ :=
  ((buyFills trades).map Fill.cost).sum

/-- Spec-side `amountOwned`: amount netted across buy and sell fills. -/
def amountOwned (trades : List Fill) : ℚ :=
  totalBought trades - ((sellFills trades).map Fill.amount).sum

/-- A Python object as it appears in the comparison
`e == ccxt.RequestTimeout` of `create_limit_order`: either a caught
exception instance or an exception class object. -/
inductive PyExcObj where
  | instOf : NetErrKind → PyExcObj
  | classObj : NetErrKind → PyExcObj
deriving DecidableEq, Repr

/-- Python `==` between such objects.  Exception classes define no custom
`__eq__`, so `==` falls back to identity: a class object equals the same
class object, and an exception instance is never the same object as a
class. -/
def pyEq : PyExcObj → PyExcObj → Bool
  | .classObj a, .classObj b => a = b
  | .instOf a, .instOf b => a = b
  | _, _ => false

/-- `BybitClient.create_limit_order`'s retry loop.  `outcomes` classifies
each `client.create_limit_order` attempt; `openOrders` is what
`client.fetch_open_orders(symbol)` would return inside the
`NetworkError` handler.  Mirrors the source: the handler tests
`e == ccxt.RequestTimeout` (the caught instance against the class object),
fetches open orders and returns `orders[0]` when that test passes and
orders exist, and otherwise sleeps and retries; `ExchangeError` returns
`None`; after exhaustion it returns `None`. -/
def create_limit_orderGo (outcomes : Nat → Outcome α) (openOrders : List α) :
    Nat → Nat → Nat → RunStats (Option α)
  | attempts, sleeps, 0 => ⟨.ret none, attempts, sleeps⟩
  | attempts, sleeps, fuel + 1 =>
    match outcomes attempts with
    | .ok o => ⟨.ret (some o), attempts + 1, sleeps⟩
    | .netErr k =>
      if pyEq (PyExcObj.instOf k) (PyExcObj.classObj NetErrKind.requestTimeout)
          && !openOrders.isEmpty then
        ⟨.ret openOrders.head?, attempts + 1, sleeps⟩
      else
        create_limit_orderGo outcomes openOrders (attempts + 1) (sleeps + 1) fuel
    | .exchErr => ⟨.ret none, attempts + 1, sleeps⟩
    | .unexpected => ⟨.raised, attempts + 1, sleeps⟩

/-- `BybitClient.create_limit_order`, from `retries = 0`. -/
def create_limit_order (outcomes : Nat → Outcome α) (openOrders : List α)
    (maxRetries : Nat) : RunStats (Option α) :=
  create_limit_orderGo outcomes openOrders 0 0 maxRetries

/-- `BybitClient.connect`: the attempt body resolves credentials, builds the
client and loads markets (`ok` carries that state abstractly); success
returns `True`, `ExchangeError` returns `False`, exhaustion returns
`False`. -/
def connect (outcomes : Nat → Outcome α) (maxRetries : Nat) : RunStats Bool :=
  retryRun outcomes (fun _ => .ret true) (.ret false) (.ret false) maxRetries

/-- A balance payload as `get_total_currency` reads it: for each listed
currency, its `total` field (`balance[currency].get("total", 0)`; `none`
models an entry without a `total` field). -/
def Balance : Type := List (String × Option ℚ)

/-- First-match association-list lookup, as Python `balance[currency]`
reads a dict (keys are unique in a dict; on our lists the first binding
wins, matching dict-insert semantics below). -/
def dictLookup : List (String × α) → String → Option α
  | [], _ => none
  | (k, v) :: rest, key => if k = key then some v else dictLookup rest key

/-- Python `key in dict`. -/
def dictMem (d : List (String × α)) (key : String) : Bool :=
  (dictLookup d key).isSome

/-- `BybitClient.get_total_currency`: fetch the balance; if the currency is
present return its `total` (default 0) as a Decimal, else return `None`;
`ExchangeError` and exhaustion return `None`. -/
def get_total_currency (outcomes : Nat → Outcome Balance) (currency : String)
    (maxRetries : Nat) : RunStats (Option ℚ) :=
  retryRun outcomes
    (fun bal =>
      match dictLookup bal currency with
      | some entry => .ret (some (entry.getD 0))
      | none => .ret none)
    (.ret none) (.ret none) maxRetries

/-- A ticker response, with the fields `get_bid_ask`/`get_last_price`
read (each may be `None`). -/
structure Ticker where
  bid : Option ℚ
  ask : Option ℚ
  last : Option ℚ
deriving DecidableEq, Repr

/-- Observable run of `get_bid_ask`: result, attempts entered, sleeps, and
the symbols passed to `client.fetch_ticker`, in order. -/
structure TickerRun (β : Type) where
  result : PyResult β
  attempts : Nat
  sleeps : Nat
  fetched : List String
deriving DecidableEq, Repr

/-- `BybitClient.get_bid_ask`'s loop.  Each iteration first validates
`isinstance(self.client, ccxt.Exchange)` (modelled by `clientValid`; failure
raises `ValueError`, which only the `except Exception` clause catches and
re-raises) and `isinstance(symbol, str)` — our `symbol : String` always
passes that check.  Then `fetch_ticker(symbol)` is called; `ExchangeError`
returns `(None, None)`, network errors sleep and retry, exhaustion returns
`(None, None)`. -/
def get_bid_askGo (clientValid : Bool) (symbol : String)
    (outcomes : Nat → Outcome Ticker) :
    Nat → Nat → List String → Nat → TickerRun (Option ℚ × Option ℚ)
  | attempts, sleeps, calls, 0 => ⟨.ret (none, none), attempts, sleeps, calls⟩
  | attempts, sleeps, calls, fuel + 1 =>
    if clientValid = false then ⟨.raised, attempts + 1, sleeps, calls⟩
    else
      match outcomes attempts with
      | .ok t => ⟨.ret (t.bid, t.ask), attempts + 1, sleeps, calls ++ [symbol]⟩
      | .netErr _ => get_bid_askGo clientValid symbol outcomes
          (attempts + 1) (sleeps + 1) (calls ++ [symbol]) fuel
      | .exchErr => ⟨.ret (none, none), attempts + 1, sleeps, calls ++ [symbol]⟩
      | .unexpected => ⟨.raised, attempts + 1, sleeps, calls ++ [symbol]⟩

/-- `BybitClient.get_bid_ask`, from `retries = 0`. -/
def get_bid_ask (clientValid : Bool) (symbol : String)
    (outcomes : Nat → Outcome Ticker) (maxRetries : Nat) :
    TickerRun (Option ℚ × Option ℚ) :=
  get_bid_askGo clientValid symbol outcomes 0 0 [] maxRetries

/-- `BybitClient.get_last_price`'s loop: same shape as `get_bid_ask`,
returning the ticker's `last` field, `None` on `ExchangeError` and on
exhaustion. -/
def get_last_priceGo (clientValid : Bool) (symbol : String)
    (outcomes : Nat → Outcome Ticker) :
    Nat → Nat → List String → Nat → TickerRun (Option ℚ)
  | attempts, sleeps, calls, 0 => ⟨.ret none, attempts, sleeps, calls⟩
  | attempts, sleeps, calls, fuel + 1 =>
    if clientValid = false then ⟨.raised, attempts + 1, sleeps, calls⟩
    else
      match outcomes attempts with
      | .ok t => ⟨.ret t.last, attempts + 1, sleeps, calls ++ [symbol]⟩
      | .netErr _ => get_last_priceGo clientValid symbol outcomes
          (attempts + 1) (sleeps + 1) (calls ++ [symbol]) fuel
      | .exchErr => ⟨.ret none, attempts + 1, sleeps, calls ++ [symbol]⟩
      | .unexpected => ⟨.raised, attempts + 1, sleeps, calls ++ [symbol]⟩

/-- `BybitClient.get_last_price`, from `retries = 0`. -/
def get_last_price (clientValid : Bool) (symbol : String)
    (outcomes : Nat → Outcome Ticker) (maxRetries : Nat) :
    TickerRun (Option ℚ) :=
  get_last_priceGo clientValid symbol outcomes 0 0 [] maxRetries

/-- `BybitClient.get_most_recent_trade`'s retry loop: success runs the
matching pass; `ExchangeError` is logged and RE-RAISED (`raise e`); network
errors sleep and retry; the loop has no statement after it, so exhaustion
falls off the function end, returning Python's implicit `None` (modelled as
`.ret none`; a real list result is `.ret (some _)`). -/
def get_most_recent_trade (outcomes : Nat → Outcome (List Fill))
    (maxRetries : Nat) : RunStats (Option (List Fill)) :=
  retryRun outcomes (fun trades => .ret (some (mostRecentTradeMatch trades)))
    .raised (.ret none) maxRetries

/-- One active strategy configuration, as `get_active_strategy_configs`
supplies it. -/
structure StrategyConfig where
  symbol : String
  currency : String
deriving DecidableEq, Repr

/-- Python dict assignment `d[k] = v`: overwrite in place if the key
exists, else append (insertion order preserved). -/
def dictInsert : List (String × α) → String → α → List (String × α)
  | [], k, v => [(k, v)]
  | (k0, v0) :: rest, k, v =>
    if k0 = k then (k0, v) :: rest else (k0, v0) :: dictInsert rest k v

/-- The per-strategy step of `get_account_allocation`'s loop, on the
success path where `get_most_recent_trade` returned its fill list:
`trades` truthy stores `get_trade_value_usd(trades)`, else stores `0`. -/
def allocationStep (fillsOf : String → List Fill)
    (d : List (String × Option ℚ)) (config : StrategyConfig) :
    List (String × Option ℚ) :=
  let trades := mostRecentTradeMatch (fillsOf config.symbol)
  if trades ≠ [] then
    dictInsert d config.currency (some (get_trade_value_usd trades))
  else
    dictInsert d config.currency (some 0)

/-- Success body of `BybitClient.get_account_allocation` (the `try` block
when no exception occurs): read the free base-currency balance
(`balance.get("free").get(self.base_currency)`, possibly `None`), store it
under the LITERAL key `"USD"`, then for each active strategy store the
prorated value of its matched trade cycle (0 when none) under the
strategy's currency.  Dict values are `Option ℚ` since the `"USD"` entry
can be Python `None`. -/
def get_account_allocation_success (base_currency : String)
    (freeBalance : String → Option ℚ) (configs : List StrategyConfig)
    (fillsOf : String → List Fill) : List (String × Option ℚ) :=
  configs.foldl (allocationStep fillsOf)
    (dictInsert [] "USD" (freeBalance base_currency))

/-- `BybitClient.get_account_allocation`'s retry loop: `ok` carries the
assembled dict; `ExchangeError` returns `None`; the loop has no statement
after it, so exhaustion returns Python's implicit `None`. -/
def get_account_allocation
    (outcomes : Nat → Outcome (List (String × Option ℚ))) (maxRetries : Nat) :
    RunStats (Option (List (String × Option ℚ))) :=
  retryRun outcomes (fun d => .ret (some d)) (.ret none) (.ret none) maxRetries

/-- CPython local-name read: a name assigned anywhere in a function body is
local for the whole body, and reading it before its assignment raises
`UnboundLocalError`. -/
def readLocal (v : Option α) : PyResult α :=
  match v with
  | none => .raised
  | some a => .ret a

/-- `BybitClient.get_total_usd`.  The body is
`sum = Decimal(str(sum(allocation_dict.values())))`: the assignment makes
`sum` local to the whole body, so the call `sum(...)` on the right-hand
side reads the still-unbound local (never the builtin) and raises
`UnboundLocalError`.  Were the read to succeed, the body has no `return`
statement and would fall through to Python's implicit `None`. -/
def get_total_usd (_allocationValues : List (Option ℚ)) : PyResult (Option ℚ) :=
  match readLocal (none : Option (List (Option ℚ) → ℚ)) with
  | .raised => .raised
  | .ret _ => .ret none


/-! ## Lemmas about the trade matcher -/

/-- `trades[-i:]` is a suffix of `trades`. -/
lemma pySliceFromNeg_suffix (xs : List Fill) (i : Nat) :
    (pySliceFromNeg xs i).IsSuffix xs := by
  unfold pySliceFromNeg
  split
  · exact List.suffix_refl xs
  · exact List.drop_suffix _ _

/-- `trades[-i:]` is non-empty when `trades` is non-empty and `i ≥ 1`. -/
lemma pySliceFromNeg_ne_nil (xs : List Fill) (i : Nat) (hx : xs ≠ [])
    (hi : 1 ≤ i) : pySliceFromNeg xs i ≠ [] := by
  unfold pySliceFromNeg
  have hlen : xs.length ≠ 0 := by simpa using hx
  split
  · exact hx
  · rw [Ne, List.drop_eq_nil_iff]
    omega

/-- Every return of the matching scan is a suffix of the scanned list. -/
lemma mostRecentTradeGo_suffix (trades : List Fill) :
    ∀ (rev : List Fill) (i : Nat) (prev : Option Side),
      (mostRecentTradeGo trades rev i prev).IsSuffix trades := by
  intro rev
  induction rev with
  | nil => intro i prev; exact List.suffix_refl trades
  | cons t rest ih =>
    intro i prev
    rw [mostRecentTradeGo]
    split
    · exact pySliceFromNeg_suffix trades i
    · exact ih (i + 1) (updatePrevSide prev t.side)

/-- The scan never returns `[]` on a non-empty list: `prev_trade_side` can
only be `"buy"` from index 1 on, so the slice `trades[-i:]` has `i ≥ 1`. -/
lemma mostRecentTradeGo_ne_nil (trades : List Fill) (htr : trades ≠ []) :
    ∀ (rev : List Fill) (i : Nat) (prev : Option Side),
      (prev = some Side.buy → 1 ≤ i) →
      mostRecentTradeGo trades rev i prev ≠ [] := by
  intro rev
  induction rev with
  | nil => intro i prev _; exact htr
  | cons t rest ih =>
    intro i prev hinv
    rw [mostRecentTradeGo]
    split
    · next hc => exact pySliceFromNeg_ne_nil trades i htr (hinv hc.1)
    · exact ih (i + 1) (updatePrevSide prev t.side) (fun _ => Nat.le_add_left 1 i)

/-- C3: for every fill sequence, the matched cycle returned by
`get_most_recent_trade`'s scan is a contiguous, newest-biased subsequence
(a suffix) of the input, and it is empty exactly when the input is empty. -/
theorem mostRecentTradeMatch_suffix_empty_iff (trades : List Fill) :
    (mostRecentTradeMatch trades).IsSuffix trades ∧
      (mostRecentTradeMatch trades = [] ↔ trades = []) := by
  unfold mostRecentTradeMatch
  split
  · next h => subst h; exact ⟨List.suffix_refl [], Iff.rfl⟩
  · next h =>
    refine ⟨mostRecentTradeGo_suffix trades trades.reverse 0 none, ?_, fun hc => absurd hc h⟩
    intro hnil
    exact absurd hnil
      (mostRecentTradeGo_ne_nil trades h trades.reverse 0 none (by simp))

/-- If no fill in the scanned tail is a sell, the scan falls through to the
`for`-`else` and returns the whole list. -/
lemma mostRecentTradeGo_no_sell (trades : List Fill) :
    ∀ (rev : List Fill) (i : Nat) (prev : Option Side),
      (∀ t ∈ rev, t.side ≠ Side.sell) →
      mostRecentTradeGo trades rev i prev = trades := by
  intro rev
  induction rev with
  | nil => intro i prev _; rfl
  | cons t rest ih =>
    intro i prev hns
    rw [mostRecentTradeGo]
    split
    · next hc => exact absurd hc.2 (hns t (List.mem_cons_self t rest))
    · exact ih (i + 1) (updatePrevSide prev t.side)
        (fun u hu => hns u (List.mem_cons_of_mem t hu))

/-- C7: a non-empty fill history with no sell fills is returned whole by
the matcher — the whole history is one open position. -/
theorem mostRecentTradeMatch_no_sell (fills : List Fill) (hne : fills ≠ [])
    (hns : ∀ t ∈ fills, t.side ≠ Side.sell) :
    mostRecentTradeMatch fills = fills := by
  unfold mostRecentTradeMatch
  rw [if_neg hne]
  exact mostRecentTradeGo_no_sell fills fills.reverse 0 none
    (fun t ht => hns t (List.mem_reverse.mp ht))

/-- C7 witness: a concrete one-buy history is returned whole. -/
theorem mostRecentTradeMatch_no_sell_witness :
    mostRecentTradeMatch [⟨Side.buy, 1, 100⟩] = [⟨Side.buy, 1, 100⟩] :=
  mostRecentTradeMatch_no_sell [⟨Side.buy, 1, 100⟩] (by simp)
    (by intro t ht; simp at ht; subst ht; simp)

/-! ## Lemmas about trade valuation -/

/-- The loop accumulator of `get_trade_value_usd` computes the spec-side
sums: total buy cost, net amount, total buy amount. -/
lemma foldl_valStep_eq (trades : List Fill) :
    ∀ s : ValState, trades.foldl valStep s =
      ⟨s.trade_value_usd + totalCost trades,
        s.amount_owned + amountOwned trades,
        s.amount_bought + totalBought trades⟩ := by
  induction trades with
  | nil =>
    intro s
    simp [totalCost, totalBought, amountOwned, buyFills, sellFills]
  | cons t rest ih =>
    intro s
    rw [List.foldl_cons, ih (valStep s t)]
    cases hs : t.side <;>
      simp [valStep, hs, totalCost, totalBought, amountOwned, buyFills,
        sellFills, List.filter_cons] <;>
      (ring_nf; try simp [add_comm, add_assoc, add_left_comm, sub_eq_add_neg])

/-- C4: `get_trade_value_usd` returns 0 when the total bought amount is 0
(the empty list included), and otherwise returns
`totalCost * round(amountOwned / totalBought, 2)`; in particular a single
`buy(2, 200)` values at 200, `buy(2, 200), sell(1)` at 100, and the fully
exited `buy(1, 100), sell(1)` at 0. -/
theorem getTradeValueUsd_spec (trades : List Fill) :
    (totalBought trades = 0 → get_trade_value_usd trades = 0) ∧
    (totalBought trades ≠ 0 → get_trade_value_usd trades =
      totalCost trades * pyRound2 (amountOwned trades / totalBought trades)) ∧
    get_trade_value_usd [⟨Side.buy, 2, 200⟩] = 200 ∧
    get_trade_value_usd [⟨Side.buy, 2, 200⟩, ⟨Side.sell, 1, 0⟩] = 100 ∧
    get_trade_value_usd [⟨Side.buy, 1, 100⟩, ⟨Side.sell, 1, 0⟩] = 0 := by
  refine ⟨?_, ?_,
    by norm_num [get_trade_value_usd, valStep, pyRound2, roundHalfEven],
    by norm_num [get_trade_value_usd, valStep, pyRound2, roundHalfEven],
    by norm_num [get_trade_value_usd, valStep, pyRound2, roundHalfEven]⟩ <;>
    · intro h
      rw [get_trade_value_usd, foldl_valStep_eq trades ⟨0, 0, 0⟩]
      simp [h]

/-- C4 witness: the zero-bought branch at the empty list, and the general
formula at the half-exited example. -/
theorem getTradeValueUsd_spec_witness :
    get_trade_value_usd [] = 0 ∧
    get_trade_value_usd [⟨Side.buy, 2, 200⟩, ⟨Side.sell, 1, 0⟩] =
      totalCost [⟨Side.buy, 2, 200⟩, ⟨Side.sell, 1, 0⟩] *
        pyRound2 (amountOwned [⟨Side.buy, 2, 200⟩, ⟨Side.sell, 1, 0⟩] /
          totalBought [⟨Side.buy, 2, 200⟩, ⟨Side.sell, 1, 0⟩]) :=
  ⟨(getTradeValueUsd_spec []).1 (by simp [totalBought, buyFills]),
    (getTradeValueUsd_spec [⟨Side.buy, 2, 200⟩, ⟨Side.sell, 1, 0⟩]).2.1
      (by simp [totalBought, buyFills, List.filter_cons])⟩

/-! ## Retry-policy theorems -/

/-- C1: the recovery guard of `create_limit_order` compares the caught
exception instance against the class object (`e == ccxt.RequestTimeout`),
which is false for every network error — so on request timeouts with a
matching open order present, the executor never fetches that order: it
retries and, exhausted, returns `None` (here: timeouts on all 3 attempts,
open order `42` waiting, yet the run ends `None` after 3 attempts and 3
sleeps). -/
theorem createLimitOrder_timeout_recovery_dead :
    (∀ k : NetErrKind,
      pyEq (PyExcObj.instOf k) (PyExcObj.classObj NetErrKind.requestTimeout)
        = false) ∧
    create_limit_order (fun _ => Outcome.netErr NetErrKind.requestTimeout)
      [(42 : Nat)] 3 = ⟨PyResult.ret none, 3, 3⟩ := by
  constructor
  · intro k; cases k <;> rfl
  · rfl

/-- C2 counterexample: an exchange rejection during the fill-history fetch
is re-raised by `get_most_recent_trade` (`raise e` in its `ExchangeError`
handler), not converted to a terminal failure value. -/
theorem getMostRecentTrade_exchErr_raises :
    (get_most_recent_trade (fun _ => Outcome.exchErr) 3).result
      = PyResult.raised := rfl

/-- C2 (amended): an exchange rejection on the first attempt ends every
operation after exactly one attempt with no sleep; `connect`,
`create_limit_order`, `get_total_currency`, `get_bid_ask`,
`get_last_price` and `get_account_allocation` return their terminal
failure values, while `get_most_recent_trade` instead re-raises the
exchange error to its caller. -/
theorem exchangeRejection_single_attempt (maxRetries : Nat)
    (hm : 0 < maxRetries)
    (ocC : Nat → Outcome Unit) (hC : ocC 0 = Outcome.exchErr)
    (ocO : Nat → Outcome Nat) (openOrders : List Nat)
    (hO : ocO 0 = Outcome.exchErr)
    (ocT : Nat → Outcome Balance) (currency : String)
    (hT : ocT 0 = Outcome.exchErr)
    (ocB : Nat → Outcome Ticker) (symB : String)
    (hB : ocB 0 = Outcome.exchErr)
    (ocL : Nat → Outcome Ticker) (symL : String)
    (hL : ocL 0 = Outcome.exchErr)
    (ocA : Nat → Outcome (List (String × Option ℚ)))
    (hA : ocA 0 = Outcome.exchErr)
    (ocM : Nat → Outcome (List Fill)) (hM : ocM 0 = Outcome.exchErr) :
    connect ocC maxRetries = ⟨PyResult.ret false, 1, 0⟩ ∧
    create_limit_order ocO openOrders maxRetries
      = ⟨PyResult.ret none, 1, 0⟩ ∧
    get_total_currency ocT currency maxRetries = ⟨PyResult.ret none, 1, 0⟩ ∧
    get_bid_ask true symB ocB maxRetries
      = ⟨PyResult.ret (none, none), 1, 0, [symB]⟩ ∧
    get_last_price true symL ocL maxRetries
      = ⟨PyResult.ret none, 1, 0, [symL]⟩ ∧
    get_account_allocation ocA maxRetries = ⟨PyResult.ret none, 1, 0⟩ ∧
    get_most_recent_trade ocM maxRetries = ⟨PyResult.raised, 1, 0⟩ := by
  obtain ⟨m, rfl⟩ : ∃ m, maxRetries = m + 1 :=
    ⟨maxRetries - 1, (Nat.succ_pred_eq_of_pos hm).symm⟩
  refine ⟨?_, ?_, ?_, ?_, ?_, ?_, ?_⟩ <;>
    simp [connect, create_limit_order, create_limit_orderGo, get_total_currency,
      get_bid_ask, get_bid_askGo, get_last_price, get_last_priceGo,
      get_account_allocation, get_most_recent_trade, retryRun, retryRunGo,
      hC, hO, hT, hB, hL, hA, hM]

/-- C2 witness: the amended behavior at concrete all-rejection streams with
the default `max_retries = 3`. -/
theorem exchangeRejection_single_attempt_witness :
    connect (fun _ => (Outcome.exchErr : Outcome Unit)) 3
      = ⟨PyResult.ret false, 1, 0⟩ ∧
    create_limit_order (fun _ => (Outcome.exchErr : Outcome Nat)) [7] 3
      = ⟨PyResult.ret none, 1, 0⟩ ∧
    get_total_currency (fun _ => Outcome.exchErr) "BTC" 3
      = ⟨PyResult.ret none, 1, 0⟩ ∧
    get_bid_ask true "BTC/USDT" (fun _ => Outcome.exchErr) 3
      = ⟨PyResult.ret (none, none), 1, 0, ["BTC/USDT"]⟩ ∧
    get_last_price true "BTC/USDT" (fun _ => Outcome.exchErr) 3
      = ⟨PyResult.ret none, 1, 0, ["BTC/USDT"]⟩ ∧
    get_account_allocation (fun _ => Outcome.exchErr) 3
      = ⟨PyResult.ret none, 1, 0⟩ ∧
    get_most_recent_trade (fun _ => Outcome.exchErr) 3
      = ⟨PyResult.raised, 1, 0⟩ :=
  exchangeRejection_single_attempt 3 (by decide)
    (fun _ => Outcome.exchErr) rfl
    (fun _ => Outcome.exchErr) [7] rfl
    (fun _ => Outcome.exchErr) "BTC" rfl
    (fun _ => Outcome.exchErr) "BTC/USDT" rfl
    (fun _ => Outcome.exchErr) "BTC/USDT" rfl
    (fun _ => Outcome.exchErr) rfl
    (fun _ => Outcome.exchErr) rfl

/-- C6: with `max_retries = 3` and a transient network error on every
attempt, each retry-wrapped operation enters its `try` body exactly 3
times, sleeps 3 times, and then returns its terminal failure value —
`False` for `connect`, `None` elsewhere (for `get_account_allocation` and
`get_most_recent_trade` the implicit `None` of falling off the function
end) — and none of them raises. -/
theorem transientExhaustion_three_attempts (ks : Nat → NetErrKind)
    (openOrders : List Nat) (currency symB symL : String) :
    connect (fun i => (Outcome.netErr (ks i) : Outcome Unit)) 3
      = ⟨PyResult.ret false, 3, 3⟩ ∧
    create_limit_order (fun i => (Outcome.netErr (ks i) : Outcome Nat))
      openOrders 3 = ⟨PyResult.ret none, 3, 3⟩ ∧
    get_total_currency (fun i => Outcome.netErr (ks i)) currency 3
      = ⟨PyResult.ret none, 3, 3⟩ ∧
    get_bid_ask true symB (fun i => Outcome.netErr (ks i)) 3
      = ⟨PyResult.ret (none, none), 3, 3, [symB, symB, symB]⟩ ∧
    get_last_price true symL (fun i => Outcome.netErr (ks i)) 3
      = ⟨PyResult.ret none, 3, 3, [symL, symL, symL]⟩ ∧
    get_account_allocation (fun i => Outcome.netErr (ks i)) 3
      = ⟨PyResult.ret none, 3, 3⟩ ∧
    get_most_recent_trade (fun i => Outcome.netErr (ks i)) 3
      = ⟨PyResult.ret none, 3, 3⟩ := by
  have hpy : ∀ k, pyEq (PyExcObj.instOf k)
      (PyExcObj.classObj NetErrKind.requestTimeout) = false := by
    intro k; cases k <;> rfl
  refine ⟨?_, ?_, ?_, ?_, ?_, ?_, ?_⟩ <;>
    simp [connect, create_limit_order, create_limit_orderGo, get_total_currency,
      get_bid_ask, get_bid_askGo, get_last_price, get_last_priceGo,
      get_account_allocation, get_most_recent_trade, retryRun, retryRunGo, hpy]

/-! ## Account allocation -/

/-- Inserting a key absent from a dict appends the binding at the end. -/
lemma dictInsert_fresh (d : List (String × α)) (k : String) (v : α)
    (h : dictLookup d k = none) : dictInsert d k v = d ++ [(k, v)] := by
  induction d with
  | nil => rfl
  | cons p rest ih =>
    rw [dictInsert]
    rw [dictLookup] at h
    split
    · next he => rw [he] at h; simp at h
    · next he =>
      rw [ih (by simpa [he] using h)]
      simp

/-- Looking a key up past bindings that do not hold it. -/
lemma dictLookup_append_of_none (d e : List (String × α)) (k : String)
    (h : dictLookup d k = none) :
    dictLookup (d ++ e) k = dictLookup e k := by
  induction d with
  | nil => rfl
  | cons p rest ih =>
    rw [dictLookup] at h
    rw [List.cons_append, dictLookup]
    split
    · next he => rw [if_pos he] at h; simp at h
    · next he => exact ih (by simpa [he] using h)

/-- The value `get_account_allocation` stores for one strategy on the
success path: the prorated USD value of the matched cycle of the
strategy's symbol, defaulting to `0` when no matched fills exist. -/
def allocEntry (fillsOf : String → List Fill) (c : StrategyConfig) :
    Option ℚ :=
  if mostRecentTradeMatch (fillsOf c.symbol) ≠ [] then
    some (get_trade_value_usd (mostRecentTradeMatch (fillsOf c.symbol)))
  else some 0

/-- The per-strategy step is a dict insert of `allocEntry`. -/
lemma allocationStep_eq (fillsOf : String → List Fill)
    (d : List (String × Option ℚ)) (c : StrategyConfig) :
    allocationStep fillsOf d c = dictInsert d c.currency (allocEntry fillsOf c) := by
  rw [allocationStep, allocEntry]
  split <;> rfl

/-- The allocation loop, run over strategy currencies that are pairwise
distinct and absent from the accumulator, appends one binding per
strategy in order. -/
lemma foldl_allocationStep (fillsOf : String → List Fill) :
    ∀ (configs : List StrategyConfig) (d : List (String × Option ℚ)),
      (∀ c ∈ configs, dictLookup d c.currency = none) →
      (configs.map StrategyConfig.currency).Nodup →
      configs.foldl (allocationStep fillsOf) d
        = d ++ configs.map (fun c => (c.currency, allocEntry fillsOf c)) := by
  intro configs
  induction configs with
  | nil => intro d _ _; simp
  | cons c rest ih =>
    intro d hfresh hnd
    rw [List.map_cons, List.nodup_cons] at hnd
    rw [List.foldl_cons, allocationStep_eq,
      dictInsert_fresh d c.currency _ (hfresh c (List.mem_cons_self c rest)),
      ih _ ?_ hnd.2]
    · simp
    · intro c' hc'
      rw [dictLookup_append_of_none _ _ _
        (hfresh c' (List.mem_cons_of_mem c hc'))]
      have hne : c.currency ≠ c'.currency := by
        intro he
        exact hnd.1 (he ▸ List.mem_map_of_mem StrategyConfig.currency hc')
      simp [dictLookup, hne]

/-- Looking up a member's currency in the bindings built from a
duplicate-free config list yields that member's entry. -/
lemma dictLookup_allocBindings (fillsOf : String → List Fill) :
    ∀ (configs : List StrategyConfig),
      (configs.map StrategyConfig.currency).Nodup →
      ∀ c ∈ configs,
        dictLookup (configs.map (fun c => (c.currency, allocEntry fillsOf c)))
          c.currency = some (allocEntry fillsOf c) := by
  intro configs
  induction configs with
  | nil => intro _ c hc; simp at hc
  | cons c0 rest ih =>
    intro hnd c hc
    rw [List.map_cons, List.nodup_cons] at hnd
    rcases List.mem_cons.mp hc with hc | hc
    · subst hc
      simp [dictLookup]
    · have hne : c0.currency ≠ c.currency := by
        intro he
        exact hnd.1 (he ▸ List.mem_map_of_mem StrategyConfig.currency hc)
      rw [List.map_cons, dictLookup, if_neg hne]
      exact ih hnd.2 c hc

/-- C5 counterexample: with base currency `"USDT"` and no active
strategies, the successful allocation is keyed by the literal `"USD"`,
and holds no entry under the configured base currency at all. -/
theorem accountAllocation_baseKey_cex :
    get_account_allocation_success "USDT" (fun _ => some 5) [] (fun _ => [])
      = [("USD", some 5)] ∧
    dictLookup
      (get_account_allocation_success "USDT" (fun _ => some 5) [] (fun _ => []))
      "USDT" = none := by
  constructor <;> rfl

/-- C5 (amended): a successful `get_account_allocation` run yields a
mapping whose first entry is keyed by the LITERAL string `"USD"` (not by
the configured base currency) and holds the free base-currency balance,
followed by exactly one entry per active strategy config keyed by that
strategy's currency, holding the prorated value of its matched cycle and
defaulting to 0 when no matched trades exist — provided the strategy
currencies are pairwise distinct and none of them is the literal
`"USD"`. -/
theorem accountAllocation_success_shape (base : String)
    (free : String → Option ℚ) (configs : List StrategyConfig)
    (fillsOf : String → List Fill)
    (hnd : (configs.map StrategyConfig.currency).Nodup)
    (husd : "USD" ∉ configs.map StrategyConfig.currency) :
    (get_account_allocation_success base free configs fillsOf).map Prod.fst
      = "USD" :: configs.map StrategyConfig.currency ∧
    dictLookup (get_account_allocation_success base free configs fillsOf)
      "USD" = some (free base) ∧
    ∀ c ∈ configs,
      dictLookup (get_account_allocation_success base free configs fillsOf)
        c.currency = some (allocEntry fillsOf c) := by
  have hfresh : ∀ c ∈ configs,
      dictLookup (dictInsert [] "USD" (free base)) c.currency = none := by
    intro c hc
    have hne : "USD" ≠ c.currency := by
      intro he
      exact husd (he ▸ List.mem_map_of_mem StrategyConfig.currency hc)
    simp [dictInsert, dictLookup, hne]
  rw [get_account_allocation_success, foldl_allocationStep fillsOf configs _ hfresh hnd]
  refine ⟨by simp [dictInsert], ?_, ?_⟩
  · simp [dictInsert, dictLookup]
  · intro c hc
    have hne : "USD" ≠ c.currency := by
      intro he
      exact husd (he ▸ List.mem_map_of_mem StrategyConfig.currency hc)
    rw [show dictInsert ([] : List (String × Option ℚ)) "USD" (free base)
        = [("USD", free base)] from rfl,
      List.singleton_append, dictLookup, if_neg hne]
    exact dictLookup_allocBindings fillsOf configs hnd c hc

/-- C5 witness: one strategy (`BTC` on `BTC/USDT`) with no fills and base
currency `USDT`: the keys come out as `["USD", "BTC"]`. -/
theorem accountAllocation_success_shape_witness :
    (get_account_allocation_success "USDT" (fun _ => some 5)
      [⟨"BTC/USDT", "BTC"⟩] (fun _ => [])).map Prod.fst = ["USD", "BTC"] :=
  (accountAllocation_success_shape "USDT" (fun _ => some 5)
    [⟨"BTC/USDT", "BTC"⟩] (fun _ => []) (by simp) (by simp)).1

/-! ## Balance, ticker validation, total USD -/

/-- If the first `k` attempts hit network errors and attempt `k` succeeds
within the retry budget, the loop's result is the success body's value. -/
lemma retryRunGo_result_ok (outcomes : Nat → Outcome α)
    (onOk : α → PyResult β) (onExch exhausted : PyResult β) (a : α) :
    ∀ (k attempts sleeps fuel : Nat), k < fuel →
      outcomes (attempts + k) = Outcome.ok a →
      (∀ i < k, ∃ kind, outcomes (attempts + i) = Outcome.netErr kind) →
      (retryRunGo outcomes onOk onExch exhausted attempts sleeps fuel).result
        = onOk a := by
  intro k
  induction k with
  | zero =>
    intro attempts sleeps fuel hk hok _
    match fuel, hk with
    | f + 1, _ =>
      rw [Nat.add_zero] at hok
      simp [retryRunGo, hok]
  | succ k ih =>
    intro attempts sleeps fuel hk hok hpre
    match fuel, hk with
    | f + 1, hk =>
      obtain ⟨kind, hk0⟩ := hpre 0 (Nat.succ_pos k)
      rw [Nat.add_zero] at hk0
      rw [retryRunGo, hk0]
      refine ih (attempts + 1) (sleeps + 1) f (by omega) ?_ ?_
      · rw [show attempts + 1 + k = attempts + (k + 1) from by omega]
        exact hok
      · intro i hi
        obtain ⟨kind', hk'⟩ := hpre (i + 1) (by omega)
        exact ⟨kind', by
          rw [show attempts + 1 + i = attempts + (i + 1) from by omega]
          exact hk'⟩

/-- C8: when the balance fetch succeeds (after any run of transient
network errors within the budget) and the requested currency is absent
from the payload, `get_total_currency` returns `None` — it does not raise,
and it does not substitute a zero total. -/
theorem getTotalCurrency_absent_none (bal : Balance) (currency : String)
    (outcomes : Nat → Outcome Balance) (k maxRetries : Nat)
    (hk : k < maxRetries) (hok : outcomes k = Outcome.ok bal)
    (hpre : ∀ i < k, ∃ kind, outcomes i = Outcome.netErr kind)
    (habs : dictLookup bal currency = none) :
    (get_total_currency outcomes currency maxRetries).result
      = PyResult.ret none ∧
    (get_total_currency outcomes currency maxRetries).result
      ≠ PyResult.raised ∧
    ∀ q : ℚ, (get_total_currency outcomes currency maxRetries).result
      ≠ PyResult.ret (some q) := by
  have h := retryRunGo_result_ok outcomes
    (fun bal =>
      match dictLookup bal currency with
      | some entry => PyResult.ret (some (entry.getD 0))
      | none => PyResult.ret none)
    (PyResult.ret none) (PyResult.ret none) bal k 0 0 maxRetries hk
    (by simpa using hok) (by simpa using hpre)
  rw [get_total_currency, retryRun, h]
  refine ⟨by simp [habs], by simp [habs], by simp [habs]⟩

/-- C8 witness: a balance listing only `BTC`, queried for `ETH`. -/
theorem getTotalCurrency_absent_none_witness :
    (get_total_currency (fun _ => Outcome.ok [("BTC", some 5)]) "ETH" 3).result
      = PyResult.ret none :=
  (getTotalCurrency_absent_none [("BTC", some 5)] "ETH"
    (fun _ => Outcome.ok [("BTC", some 5)]) 0 3 (by decide) rfl
    (by intro i hi; omega) (by simp [dictLookup])).1

/-- C9 counterexample: with a valid connection, a call with the empty
string as symbol passes both `isinstance` checks and IS sent to the
exchange — `fetch_ticker` is called with `""` and its answer is returned,
so the empty symbol is not rejected by the validation. -/
theorem getBidAsk_emptySymbol_sent_cex :
    get_bid_ask true "" (fun _ => Outcome.ok ⟨some 1, some 2, some 3⟩) 3
      = ⟨PyResult.ret (some 1, some 2), 1, 0, [""]⟩ := rfl

/-- Whatever the outcomes, the loop only ever appends to the call trace. -/
lemma get_bid_askGo_fetched_prefix (symbol : String)
    (outcomes : Nat → Outcome Ticker) :
    ∀ (fuel attempts sleeps : Nat) (calls : List String),
      ∃ rest, (get_bid_askGo true symbol outcomes attempts sleeps calls
        fuel).fetched = calls ++ rest := by
  intro fuel
  induction fuel with
  | zero => intro attempts sleeps calls; exact ⟨[], by simp [get_bid_askGo]⟩
  | succ f ih =>
    intro attempts sleeps calls
    cases ho : outcomes attempts with
    | netErr kind =>
      obtain ⟨rest, hrest⟩ := ih (attempts + 1) (sleeps + 1) (calls ++ [symbol])
      exact ⟨[symbol] ++ rest, by simp [get_bid_askGo, ho, hrest]⟩
    | ok t => exact ⟨[symbol], by simp [get_bid_askGo, ho]⟩
    | exchErr => exact ⟨[symbol], by simp [get_bid_askGo, ho]⟩
    | unexpected => exact ⟨[symbol], by simp [get_bid_askGo, ho]⟩

/-- C9 (amended): each iteration of `get_bid_ask` validates only that the
client is a `ccxt.Exchange` instance and that the symbol is a string.  An
invalid client makes the call raise without any exchange call; with a
valid client every string symbol — the empty string included — is passed
to `fetch_ticker` as the first exchange call. -/
theorem getBidAsk_validation (symbol : String)
    (outcomes : Nat → Outcome Ticker) (maxRetries : Nat)
    (hm : 0 < maxRetries) :
    (get_bid_ask false symbol outcomes maxRetries).result = PyResult.raised ∧
    (get_bid_ask false symbol outcomes maxRetries).fetched = [] ∧
    (get_bid_ask true symbol outcomes maxRetries).fetched.head?
      = some symbol := by
  obtain ⟨m, rfl⟩ : ∃ m, maxRetries = m + 1 :=
    ⟨maxRetries - 1, (Nat.succ_pred_eq_of_pos hm).symm⟩
  refine ⟨by simp [get_bid_ask, get_bid_askGo], by simp [get_bid_ask, get_bid_askGo], ?_⟩
  cases ho : outcomes 0 with
  | netErr kind =>
    obtain ⟨rest, hrest⟩ := get_bid_askGo_fetched_prefix symbol outcomes m 1 1 [symbol]
    simp [get_bid_ask, get_bid_askGo, ho, hrest]
  | ok t => simp [get_bid_ask, get_bid_askGo, ho]
  | exchErr => simp [get_bid_ask, get_bid_askGo, ho]
  | unexpected => simp [get_bid_ask, get_bid_askGo, ho]

/-- C9 witness: the empty symbol is the first symbol fetched even while
the network fails. -/
theorem getBidAsk_validation_witness :
    (get_bid_ask true "" (fun _ => Outcome.netErr NetErrKind.otherNetwork)
      3).fetched.head? = some "" :=
  (getBidAsk_validation "" (fun _ => Outcome.netErr NetErrKind.otherNetwork)
    3 (by decide)).2.2

/-- C10: `get_total_usd` always raises: the assignment
`sum = Decimal(str(sum(...)))` makes `sum` a local name for the whole
body, so the call on the right-hand side reads the unbound local and
raises `UnboundLocalError` before any value is produced — no caller can
obtain the account total from it. -/
theorem getTotalUsd_always_raises :
    ∀ vals : List (Option ℚ), get_total_usd vals = PyResult.raised ∧
      ∀ r : Option ℚ, get_total_usd vals ≠ PyResult.ret r := by
  intro vals
  exact ⟨rfl, fun r h => by simp [get_total_usd, readLocal] at h⟩
